import Mathlib

/-!
Verification of the dialogue engine of the `tgbot-electro-tools` Telegram
support bot (Go). Go strings are embedded as `List Char`; the bot's storage
(PostgreSQL) is embedded as an explicit `World` record, and each Go handler
becomes a pure function from a world and an input event to a new world and
an optional reply. Machine integers (Go `int`, `int64`) are embedded as
`Int`; the DB's serial ids and Unix timestamps as `Int`.
-/

set_option maxHeartbeats 1000000

/-- Embedding of a Go string as its list of characters. -/
abbrev GoStr := List Char

/-- Literal helper: the character list of a Lean string literal. -/
def str (s : String) : GoStr := s.toList

/-- Embeds `strings.Contains(s, string(c))` for a single-character separator:
true iff the character occurs in the string. -/
def goContainsChar (c : Char) : GoStr → Bool
  | [] => false
  | a :: rest => a == c || goContainsChar c rest

/-- Embeds `strings.HasPrefix(s, pre)`. -/
def goStartsWith (pre s : GoStr) : Bool :=
  pre.isPrefixOf s

/-- Embeds `strings.TrimPrefix(s, pre)`: drops `pre` when it is a prefix of
`s`, otherwise returns `s` unchanged. -/
def goTrimPre (pre s : GoStr) : GoStr :=
  if goStartsWith pre s then s.drop pre.length else s

/-- Embeds `strings.Split(s, string(sep))` for a single-character separator
(Go `strings.Split` with a non-empty separator: the list of substrings
between occurrences of the separator; `[""]` for the empty string). -/
def goSplit (sep : Char) : GoStr → List GoStr
  | [] => [[]]
  | c :: rest =>
    match goSplit sep rest with
    | [] => [[]]
    | cur :: done => if c = sep then [] :: cur :: done else (c :: cur) :: done

/-- Splits a string at the first occurrence of `sep`, if any, returning the
parts before and after it. Helper for the embedding of `strings.SplitN`. -/
def breakAtChar (sep : Char) : GoStr → Option (GoStr × GoStr)
  | [] => none
  | c :: rest =>
    if c = sep then some ([], rest)
    else
      match breakAtChar sep rest with
      | none => none
      | some (a, b) => some (c :: a, b)

/-- Embeds `strings.SplitN(s, string(sep), n)` for `n ≥ 0` and a
single-character separator: at most `n` substrings, the last one being the
unsplit remainder (`n = 0` yields the empty list, as in Go). -/
def goSplitN (sep : Char) : Nat → GoStr → List GoStr
  | 0, _ => []
  | 1, s => [s]
  | n + 2, s =>
    match breakAtChar sep s with
    | none => [s]
    | some (a, b) => a :: goSplitN sep (n + 1) b

/-- Embeds `strings.Join(parts, string(sep))`. -/
def goJoin (sep : Char) : List GoStr → GoStr
  | [] => []
  | [x] => x
  | x :: rest => x ++ sep :: goJoin sep rest

/-- Go `unicode.IsSpace` restricted to the Latin-1 range (the only
whitespace characters relevant here): the set used by `strings.TrimSpace`. -/
def isGoSpace (c : Char) : Bool :=
  c == ' ' || c == '\t' || c == '\n' || c == '\x0b' || c == '\x0c' ||
  c == '\r' || c == '\u0085' || c == ' '

/-- Embeds `strings.TrimSpace`. -/
def trimSpace (s : GoStr) : GoStr :=
  ((s.dropWhile isGoSpace).reverse.dropWhile isGoSpace).reverse

/-- Embeds `strings.ToLower` character by character (ASCII case folding;
no claim in this development depends on case folding beyond ASCII). -/
def goToLower (s : GoStr) : GoStr :=
  s.map Char.toLower

/-- The decimal digit character for `d` (Go `'0' + d` for `d < 10`). -/
def digitChar (d : Nat) : Char :=
  match d with
  | 0 => '0' | 1 => '1' | 2 => '2' | 3 => '3' | 4 => '4'
  | 5 => '5' | 6 => '6' | 7 => '7' | 8 => '8' | _ => '9'

/-- Accumulator loop of the decimal rendering of a natural number. The
recursion is driven by a fuel argument so that the definition is
structural and closed instances reduce inside the kernel; `natToChars`
supplies sufficient fuel (`n/10 < n`, so `n + 1` steps always suffice). -/
def natToCharsFuel : Nat → Nat → List Char → List Char
  | 0, _, acc => acc
  | fuel + 1, n, acc =>
    if n < 10 then digitChar n :: acc
    else natToCharsFuel fuel (n / 10) (digitChar (n % 10) :: acc)

/-- Decimal rendering of a natural number (digits of `fmt %d`). -/
def natToChars (n : Nat) : List Char := natToCharsFuel (n + 1) n []

/-- Embeds Go `fmt.Sprintf("%d", z)` for an `int` value. -/
def intToChars (z : Int) : List Char :=
  if z < 0 then '-' :: natToChars z.natAbs else natToChars z.toNat

/-- The numeric value of a decimal digit character, if it is one. -/
def digitVal (c : Char) : Option Nat :=
  if 48 ≤ c.toNat ∧ c.toNat ≤ 57 then some (c.toNat - 48) else none

/-- Accumulator loop of decimal parsing: `none` as soon as a non-digit
character is met. -/
def parseDigitsAux (acc : Nat) : List Char → Option Nat
  | [] => some acc
  | c :: rest =>
    match digitVal c with
    | none => none
    | some d => parseDigitsAux (acc * 10 + d) rest

/-- Parses a non-empty all-digit string as a natural number. -/
def parseDigits (s : List Char) : Option Nat :=
  if s = [] then none else parseDigitsAux 0 s

/-- Embeds `strconv.Atoi`: an optional sign followed by decimal digits;
`none` embeds the error return (overflow is not modelled: ids and counts
in this program are far below 2^63). -/
def goAtoi (s : GoStr) : Option Int :=
  match s with
  | [] => none
  | c :: rest =>
    if c = '-' then (parseDigits rest).map (fun n => -(n : Int))
    else if c = '+' then (parseDigits rest).map (fun n => (n : Int))
    else (parseDigits (c :: rest)).map (fun n => (n : Int))

/-- `strconv.Atoi` with the error ignored, as in `id, _ := strconv.Atoi(s)`:
the Go zero value 0 on a parse error. -/
def goAtoiOrZero (s : GoStr) : Int :=
  (goAtoi s).getD 0

-- Lemmas about the string utilities.

theorem goSplit_ne_nil (sep : Char) (s : GoStr) : goSplit sep s ≠ [] := by
  induction s with
  | nil => simp [goSplit]
  | cons c rest ih =>
    simp only [goSplit]
    cases h : goSplit sep rest with
    | nil => simp
    | cons cur done =>
      by_cases hc : c = sep <;> simp [hc]

theorem goSplit_of_not_contains (sep : Char) (s : GoStr)
    (h : goContainsChar sep s = false) : goSplit sep s = [s] := by
  induction s with
  | nil => simp [goSplit]
  | cons c rest ih =>
    simp only [goContainsChar, Bool.or_eq_false_iff, beq_eq_false_iff_ne] at h
    obtain ⟨hc, hrest⟩ := h
    simp [goSplit, ih hrest, hc]

theorem one_lt_length_goSplit_of_contains (sep : Char) (s : GoStr)
    (h : goContainsChar sep s = true) : 1 < (goSplit sep s).length := by
  induction s with
  | nil => simp [goContainsChar] at h
  | cons c rest ih =>
    simp only [goContainsChar, Bool.or_eq_true, beq_iff_eq] at h
    simp only [goSplit]
    cases hs : goSplit sep rest with
    | nil => exact absurd hs (goSplit_ne_nil sep rest)
    | cons cur done =>
      rcases h with hc | hrest
      · simp [hc]
      · have := ih hrest
        rw [hs] at this
        by_cases hc : c = sep <;> simp [hc] <;> simp at this <;> omega

theorem breakAtChar_append (sep : Char) (a b : GoStr)
    (h : goContainsChar sep a = false) :
    breakAtChar sep (a ++ sep :: b) = some (a, b) := by
  induction a with
  | nil => simp [breakAtChar]
  | cons c rest ih =>
    simp only [goContainsChar, Bool.or_eq_false_iff, beq_eq_false_iff_ne] at h
    obtain ⟨hc, hrest⟩ := h
    simp [breakAtChar, hc, ih hrest]

theorem goSplitN_append (sep : Char) (n : Nat) (a b : GoStr)
    (h : goContainsChar sep a = false) :
    goSplitN sep (n + 2) (a ++ sep :: b) = a :: goSplitN sep (n + 1) b := by
  simp [goSplitN, breakAtChar_append sep a b h]

theorem goSplitN_length_le (sep : Char) (n : Nat) (s : GoStr) :
    (goSplitN sep n s).length ≤ n := by
  induction n generalizing s with
  | zero => simp [goSplitN]
  | succ m ih =>
    cases m with
    | zero => simp [goSplitN]
    | succ k =>
      simp only [goSplitN]
      cases h : breakAtChar sep s with
      | none => simp
      | some p =>
        obtain ⟨a, b⟩ := p
        simpa using ih b

theorem goContainsChar_eq_false_iff (c : Char) (s : GoStr) :
    goContainsChar c s = false ↔ ∀ a ∈ s, a ≠ c := by
  induction s with
  | nil => simp [goContainsChar]
  | cons a rest ih =>
    simp [goContainsChar, ih]

theorem digitVal_digitChar (d : Nat) (h : d < 10) :
    digitVal (digitChar d) = some d := by
  interval_cases d <;> rfl

theorem digitChar_not_special (d : Nat) (h : d < 10) :
    digitChar d ≠ '-' ∧ digitChar d ≠ '+' ∧ digitChar d ≠ '_' := by
  interval_cases d <;> exact ⟨by decide, by decide, by decide⟩

theorem natToCharsFuel_shape (n : Nat) :
    ∀ fuel tail, n < fuel →
      ∃ d rest, d < 10 ∧ natToCharsFuel fuel n tail = digitChar d :: rest := by
  induction n using Nat.strong_induction_on with
  | _ n ih =>
    intro fuel tail hf
    obtain ⟨g, rfl⟩ : ∃ g, fuel = g + 1 := ⟨fuel - 1, by omega⟩
    by_cases h : n < 10
    · exact ⟨n, tail, h, by simp [natToCharsFuel, h]⟩
    · obtain ⟨d, rest, hd, heq⟩ :=
        ih (n / 10) (Nat.div_lt_self (by omega) (by omega)) g
          (digitChar (n % 10) :: tail)
          (by have hlt : n / 10 < n := Nat.div_lt_self (by omega) (by omega); omega)
      exact ⟨d, rest, hd, by simp [natToCharsFuel, h]; exact heq⟩

theorem mem_natToCharsFuel (n : Nat) :
    ∀ fuel tail c, n < fuel → c ∈ natToCharsFuel fuel n tail →
      c ∈ tail ∨ ∃ d, d < 10 ∧ c = digitChar d := by
  induction n using Nat.strong_induction_on with
  | _ n ih =>
    intro fuel tail c hf hc
    obtain ⟨g, rfl⟩ : ∃ g, fuel = g + 1 := ⟨fuel - 1, by omega⟩
    by_cases h : n < 10
    · simp only [natToCharsFuel, h, if_true, List.mem_cons] at hc
      rcases hc with hc | hc
      · exact Or.inr ⟨n, h, hc⟩
      · exact Or.inl hc
    · simp only [natToCharsFuel, h, if_false] at hc
      rcases ih (n / 10) (Nat.div_lt_self (by omega) (by omega)) g _ c
          (by have hlt : n / 10 < n := Nat.div_lt_self (by omega) (by omega); omega)
          hc with hm | hm
      · rcases List.mem_cons.mp hm with hm | hm
        · exact Or.inr ⟨n % 10, Nat.mod_lt _ (by omega), hm⟩
        · exact Or.inl hm
      · exact Or.inr hm

theorem parseDigitsAux_natToCharsFuel (n : Nat) :
    ∀ fuel acc tail, n < fuel → ∃ k, 0 < k ∧
      parseDigitsAux acc (natToCharsFuel fuel n tail) =
        parseDigitsAux (acc * 10 ^ k + n) tail := by
  induction n using Nat.strong_induction_on with
  | _ n ih =>
    intro fuel acc tail hf
    obtain ⟨g, rfl⟩ : ∃ g, fuel = g + 1 := ⟨fuel - 1, by omega⟩
    by_cases h : n < 10
    · refine ⟨1, by omega, ?_⟩
      simp [natToCharsFuel, h, parseDigitsAux, digitVal_digitChar n h, pow_one]
    · obtain ⟨k, hk, heq⟩ :=
        ih (n / 10) (Nat.div_lt_self (by omega) (by omega)) g acc
          (digitChar (n % 10) :: tail)
          (by have hlt : n / 10 < n := Nat.div_lt_self (by omega) (by omega); omega)
      refine ⟨k + 1, by omega, ?_⟩
      simp only [natToCharsFuel, h, if_false]
      rw [heq]
      simp only [parseDigitsAux, digitVal_digitChar (n % 10) (Nat.mod_lt _ (by omega))]
      congr 1
      have hdm := Nat.div_add_mod n 10
      ring_nf
      omega

theorem parseDigits_natToChars (n : Nat) : parseDigits (natToChars n) = some n := by
  obtain ⟨d, rest, _, hshape⟩ := natToCharsFuel_shape n (n + 1) [] (by omega)
  obtain ⟨k, _, heq⟩ := parseDigitsAux_natToCharsFuel n (n + 1) 0 [] (by omega)
  unfold natToChars
  rw [parseDigits, if_neg (by rw [hshape]; simp), heq]
  simp [parseDigitsAux]

theorem goAtoiOrZero_neg_natToChars (m : Nat) :
    goAtoiOrZero ('-' :: natToChars m) = -(m : Int) := by
  simp [goAtoiOrZero, goAtoi, parseDigits_natToChars]

theorem goAtoiOrZero_intToChars (z : Int) : goAtoiOrZero (intToChars z) = z := by
  by_cases hz : z < 0
  · have hc : intToChars z = '-' :: natToChars z.natAbs := by
      simp [intToChars, hz]
    rw [hc, goAtoiOrZero_neg_natToChars]
    omega
  · have hzn : intToChars z = natToChars z.toNat := by
      simp [intToChars, hz]
    obtain ⟨d, rest, hd, hshape⟩ :=
      natToCharsFuel_shape z.toNat (z.toNat + 1) [] (by omega)
    have hs : natToChars z.toNat = digitChar d :: rest := hshape
    obtain ⟨h1, h2, _⟩ := digitChar_not_special d hd
    rw [goAtoiOrZero, hzn, hs, goAtoi]
    simp only [if_neg h1, if_neg h2]
    rw [← hs, parseDigits_natToChars]
    simp
    omega

theorem goContainsChar_natToChars (n : Nat) :
    goContainsChar '_' (natToChars n) = false := by
  rw [goContainsChar_eq_false_iff]
  intro a ha
  rcases mem_natToCharsFuel n (n + 1) [] a (by omega) ha with h | ⟨d, hd, rfl⟩
  · simp at h
  · exact (digitChar_not_special d hd).2.2

theorem goContainsChar_intToChars (z : Int) :
    goContainsChar '_' (intToChars z) = false := by
  by_cases hz : z < 0
  · simp [intToChars, hz, goContainsChar, goContainsChar_natToChars]
  · simp [intToChars, hz, goContainsChar_natToChars]

/-!
Rate limiter (storage.CheckRateLimit, `src/internal/storage/storage.go`
lines 273-331). The per-user DB row `rate_limits.message_timestamps` is
embedded as `List Int`; the function returns the admission decision and the
row contents after the call (unchanged when the call is rejected, since the
Go code returns before the upsert in that case).
-/

/-- Embeds storage.CheckRateLimit: prune stored timestamps to the last 60
seconds, reject when at least `maxPerMinute` remain, otherwise persist the
pruned list with the current timestamp appended and admit. -/
def CheckRateLimit (now : Int) (stored : List Int) (maxPerMinute : Int) :
    Bool × List Int :=
  let oneMinuteAgo := now - 60
  let timestamps := stored.filter (fun ts => oneMinuteAgo ≤ ts)
  if maxPerMinute ≤ (timestamps.length : Int) then (false, stored)
  else (true, timestamps ++ [now])

/-!
Email validation (fsm.IsValidEmail, `src/internal/fsm/fsm.go` lines 675-680,
identical in `src/unnamed/part_003` lines 105-110): the regular expression
`^[a-zA-Z0-9._%+\-]+@[a-zA-Z0-9.\-]+\.[a-zA-Z]{2,}$` applied to the trimmed
input. The anchored regex is embedded by its match semantics: the string
matches iff it decomposes as `local ++ "@" ++ domain ++ "." ++ tld` with
`local` a non-empty word over the local character class, `domain` a
non-empty word over the domain character class, and `tld` at least two
ASCII letters.
-/

/-- Character class `[a-zA-Z0-9._%+\-]` of the regex's local part. -/
def isLocalChar (c : Char) : Bool :=
  c.isAlpha || c.isDigit || c == '.' || c == '_' || c == '%' || c == '+' ||
  c == '-'

/-- Character class `[a-zA-Z0-9.\-]` of the regex's domain part. -/
def isDomainChar (c : Char) : Bool :=
  c.isAlpha || c.isDigit || c == '.' || c == '-'

/-- All decompositions of a list into a prefix and a suffix. -/
def listSplits : GoStr → List (GoStr × GoStr)
  | [] => [([], [])]
  | c :: rest => ([], c :: rest) :: (listSplits rest).map (fun p => (c :: p.1, p.2))

/-- Embeds fsm.IsValidEmail (see the section comment for the regex). -/
def IsValidEmail (email : GoStr) : Bool :=
  let s := trimSpace email
  (listSplits s).any fun p =>
    match p.2 with
    | '@' :: rest =>
      !p.1.isEmpty && p.1.all isLocalChar &&
      ((listSplits rest).any fun q =>
        match q.2 with
        | '.' :: tld =>
          !q.1.isEmpty && q.1.all isDomainChar &&
          decide (2 ≤ tld.length) && tld.all Char.isAlpha
        | _ => false)
    | _ => false

/-!
FSM state constants and canned messages (`src/internal/fsm/fsm.go` lines
24-31 and 682-742; the same constants appear in `src/unnamed/part_003`).
The state type is a string in Go (`type State string`).
-/

def StateIdle : GoStr := str "idle"

def StateUSHMNotStartingStep1 : GoStr := str "ushm_not_starting_step1"

def StateUSHMNotStartingStep2 : GoStr := str "ushm_not_starting_step2"

def StateAwaitingEmail : GoStr := str "awaiting_email"

def StateAwaitingEmailConsent : GoStr := str "awaiting_email_consent"

def StateOfferingSiteLink : GoStr := str "offering_site_link"

/-- Modelled from the spec: the constant fsm.StateOfferingSitePost is
referenced by bot.go (handleSiteLinkYesPost) but its fsm.go definition is
not among the source files; the state string follows the naming convention
of the other State constants (spec section 4.5, `OfferingSitePost`). -/
def StateOfferingSitePost : GoStr := str "offering_site_post"

def GetStartMessage : GoStr :=
  str "Здравствуйте! Я — технический помощник по электроинструментам. Опишите проблему с вашим устройством."

def GetSiteLinkOfferMessage : GoStr :=
  str "Хотите подробнее ознакомиться с инструкциями и рекомендациями по эксплуатации? Перейти на сайт?"

def GetEmailRequestMessage : GoStr :=
  str "Отлично! Пожалуйста, укажите ваш email адрес для получения полезной информации об эксплуатации электроинструментов."

def GetEmailConsentMessage : GoStr :=
  str "Разрешаете ли вы получать технические рекомендации и инструкции по эксплуатации на этот email? Это не реклама."

def GetEmailSavedMessage (siteURL : GoStr) : GoStr :=
  str "Спасибо! Информация сохранена.\n\nВот ссылка на полезные материалы: " ++ siteURL

def GetEmailDeclinedMessage (siteURL : GoStr) : GoStr :=
  str "Понял, не будем использовать ваш email.\n\nВот ссылка на полезные материалы: " ++ siteURL

def GetSiteLinkDeclinedMessage : GoStr :=
  str "Хорошо, если что — обращайтесь! Всегда рад помочь."

def GetRateLimitMessage : GoStr :=
  str "Пожалуйста, подождите немного. Вы отправляете сообщения слишком часто."

/-- Modelled from the spec: fsm.GetSiteLinkOfferPost is called by bot.go
(handleSiteLinkYesPost) but its fsm.go definition is not among the source
files; it is a canned message carrying the configured site URL (spec
section 4.5: the short path shows the site post). Its exact text decides
no claim. -/
def GetSiteLinkOfferPost (siteURL : GoStr) : GoStr :=
  str "Вот ссылка на полезные материалы: " ++ siteURL

/-- Embeds fsm.GetPreviousStepKey (`src/internal/fsm/fsm.go` lines
456-475): when the key contains an underscore and splits into more than
one part, join all parts but the last; if that parent is neither `"root"`
nor empty, return it; in every other case return `"root"`. -/
def GetPreviousStepKey (currentStepKey : GoStr) : GoStr :=
  if goContainsChar '_' currentStepKey then
    let parts := goSplit '_' currentStepKey
    if 1 < parts.length then
      let parentKey := goJoin '_' parts.dropLast
      if parentKey ≠ str "root" ∧ parentKey ≠ [] then parentKey
      else str "root"
    else str "root"
  else str "root"

/-- The spec's description of `previousStepKey` (spec section 4.3), stated
in its own words for comparison with `GetPreviousStepKey`: remove the last
underscore-delimited segment; if the remainder is empty or equals `root`,
return `"root"`. -/
def specPreviousStepKey (k : GoStr) : GoStr :=
  let parent := goJoin '_' ((goSplit '_' k).dropLast)
  if parent = [] ∨ parent = str "root" then str "root" else parent

theorem getPreviousStepKey_eq_spec (k : GoStr) :
    GetPreviousStepKey k = specPreviousStepKey k := by
  unfold GetPreviousStepKey specPreviousStepKey
  by_cases h : goContainsChar '_' k
  · have hl := one_lt_length_goSplit_of_contains '_' k h
    simp only [h, if_true, hl]
    by_cases hr : goJoin '_' ((goSplit '_' k).dropLast) = str "root"
    · simp [hr]
    · by_cases he : goJoin '_' ((goSplit '_' k).dropLast) = []
      · simp [he]
      · simp [hr, he]
  · have hs := goSplit_of_not_contains '_' k (by simpa using h)
    simp [h, hs, goJoin]

/-!
Data model and storage embedding. The claims concern the handlers' effect
for one user, so the world carries that user's row, session row and rate
row, together with the global scenario/step store and settings. The
storage methods for scenarios, steps and sessions (GetFSMScenarios,
GetFSMScenarioSteps, GetFSMScenarioStep, GetFSMScenario, GetUserSession,
UpdateUserSession, DeleteUserSession, ResetUserMessageCount,
GetFSMScenarioByTrigger) are declared in the storage interface and called
throughout fsm.go and bot.go, but their SQL implementations are not among
the source files; they are embedded as the evident finite-map operations
the callers rely on (and GetFSMScenarioByTrigger from the spec, see its
doc comment).
-/

structure FSMScenario where
  id : Int
  name : GoStr
  displayName : GoStr
  triggerKeywords : List GoStr
  description : GoStr
deriving DecidableEq

structure FSMScenarioStep where
  stepKey : GoStr
  message : GoStr
  isFinal : Bool
  nextStepKey : Option GoStr
  stateType : GoStr
deriving DecidableEq

structure UserRec where
  messageCount : Int
  fsmState : GoStr
  email : GoStr
  consentGranted : Bool
deriving DecidableEq

structure Settings where
  triggerMessageCount : Int
  siteURL : GoStr
deriving DecidableEq

structure Button where
  text : GoStr
  callbackData : GoStr
deriving DecidableEq

structure Reply where
  text : GoStr
  buttons : List Button
deriving DecidableEq

structure World where
  scenarios : List FSMScenario
  steps : List (Int × FSMScenarioStep)
  session : Option (Int × GoStr)
  user : Option UserRec
  settings : Settings
  rate : List Int
  rateLimitPerMin : Int
  openAIEnabled : Bool
deriving DecidableEq

/-- storage.GetFSMScenarioSteps: the steps of one scenario, in store
order (`ORDER BY id`, the seeding order). -/
def GetFSMScenarioSteps (w : World) (scenarioID : Int) : List FSMScenarioStep :=
  (w.steps.filter (fun e => e.1 = scenarioID)).map Prod.snd

/-- storage.GetFSMScenarioStep: the step with the given key in the given
scenario, if present. -/
def GetFSMScenarioStep (w : World) (scenarioID : Int) (stepKey : GoStr) :
    Option FSMScenarioStep :=
  (w.steps.find? (fun e => e.1 = scenarioID ∧ e.2.stepKey = stepKey)).map Prod.snd

/-- storage.GetFSMScenarios: all scenarios, in store order. -/
def GetFSMScenarios (w : World) : List FSMScenario := w.scenarios

/-- storage.GetFSMScenario: the scenario with the given id, if present. -/
def GetFSMScenario (w : World) (scenarioID : Int) : Option FSMScenario :=
  w.scenarios.find? (fun sc => sc.id = scenarioID)

/-- storage.GetUserSession for the modelled user (a row with a NULL
scenario id is identified with an absent row, as the callers treat the
two alike: fsm.go line 62). -/
def GetUserSession (w : World) : Option (Int × GoStr) := w.session

/-- storage.UpdateUserSession for the modelled user. -/
def UpdateUserSession (w : World) (scenarioID : Int) (stepKey : GoStr) : World :=
  { w with session := some (scenarioID, stepKey) }

/-- storage.DeleteUserSession for the modelled user. -/
def DeleteUserSession (w : World) : World :=
  { w with session := none }

/-- storage.GetUser for the modelled user. -/
def GetUser (w : World) : Option UserRec := w.user

/-- storage.GetOrCreateUser: inserts a fresh row (message_count 0,
fsm_state 'idle') when the user is unknown. -/
def GetOrCreateUser (w : World) : UserRec × World :=
  match w.user with
  | some u => (u, w)
  | none =>
    let u : UserRec := ⟨0, StateIdle, [], false⟩
    (u, { w with user := some u })

/-- storage.UpdateUserMessageCount: `message_count = message_count + 1`
(a no-op when the row is absent, as in SQL). -/
def UpdateUserMessageCount (w : World) : World :=
  { w with user := w.user.map fun u => { u with messageCount := u.messageCount + 1 } }

/-- storage.ResetUserMessageCount: `message_count = 0`. -/
def ResetUserMessageCount (w : World) : World :=
  { w with user := w.user.map fun u => { u with messageCount := 0 } }

/-- storage.UpdateUserFSMState. -/
def UpdateUserFSMState (w : World) (state : GoStr) : World :=
  { w with user := w.user.map fun u => { u with fsmState := state } }

/-- storage.UpdateUserEmail. -/
def UpdateUserEmail (w : World) (email : GoStr) (consentGranted : Bool) : World :=
  { w with user := w.user.map fun u =>
      { u with email := email, consentGranted := consentGranted } }

/-- storage.GetSettings (the single settings row). -/
def GetSettings (w : World) : Settings := w.settings

/-- Embeds `strings.Contains(s, sub)`: some decomposition of `s` has `sub`
as a prefix of its suffix part. -/
def goContainsSub (sub s : GoStr) : Bool :=
  (listSplits s).any fun p => goStartsWith sub p.2

/-- Modelled from the spec: storage.GetFSMScenarioByTrigger's SQL is not
among the source files. Spec section 4.2: a case-insensitive substring
test of the message against each scenario's trigger_keywords; the first
scenario (in store order) with any matching keyword wins, `none` when no
keyword matches. -/
def GetFSMScenarioByTrigger (w : World) (text : GoStr) : Option FSMScenario :=
  w.scenarios.find? fun sc =>
    sc.triggerKeywords.any fun kw => goContainsSub (goToLower kw) (goToLower text)

/-!
Navigation and button generation (`src/internal/fsm/fsm.go`).
-/

/-- Embeds fsm.GetFirstStep (fsm.go lines 266-279): `nil` when the
scenario has no steps, else the positionally first step of the scenario's
step list (the Go comment: "Return the first step (assuming steps are
ordered by ID)"). -/
def GetFirstStep (w : World) (scenarioID : Int) : Option FSMScenarioStep :=
  match GetFSMScenarioSteps w scenarioID with
  | [] => none
  | s :: _ => some s

/-- The `goto_<id>_<stepKey>` callback token, as produced by
`fmt.Sprintf("goto_%d_%s", scenarioID, stepKey)` in getProblemButtons and
getDiagnosticButtons. -/
def encodeGotoToken (scenarioID : Int) (stepKey : GoStr) : GoStr :=
  str "goto_" ++ intToChars scenarioID ++ '_' :: stepKey

/-- The `back_<id>_<stepKey>` callback token
(`fmt.Sprintf("back_%d_%s", ...)`). -/
def backButtonFor (scenarioID : Int) (stepKey : GoStr) : Button :=
  ⟨str "⬅️ Назад", str "back_" ++ intToChars scenarioID ++ '_' :: stepKey⟩

/-- The hardcoded problem-step keywords of fsm.getProblemButtons
(fsm.go line 344). -/
def problemKeywords : List GoStr :=
  [str "no_power", str "stops_during_work", str "vibration_noise",
   str "motor_runs_no_blade", str "vibration_inaccurate", str "blade_no_move",
   str "vibration_drift", str "spins_no_torque", str "battery_drains",
   str "uneven_vibration"]

/-- The button-label computation inside fsm.getProblemButtons (fsm.go
lines 349-370): first line of the step message up to the first period,
trimmed, with the hardcoded Russian prefix rewrites. -/
def problemButtonText (message : GoStr) : GoStr :=
  let firstLine := (goSplit '\n' message).headD []
  let t0 := trimSpace ((goSplit '.' firstLine).headD [])
  let t1 := if goStartsWith (str "Устройство") t0 then goTrimPre (str "Устройство ") t0 else t0
  let t2 := if goStartsWith (str "Мотор") t1 then goTrimPre (str "Мотор ") t1 else t1
  let t3 := if goStartsWith (str "Полотно") t2 then goTrimPre (str "Полотно ") t2 else t2
  let t4 := if goStartsWith (str "Вращается") t3 then str "Вращается, но не крутит" else t3
  let t5 := if goStartsWith (str "Аккумулятор") t4 then str "Аккумулятор быстро садится" else t4
  let t6 := if goStartsWith (str "Неровный") t5 then str "Неровный срез или вибрация" else t5
  t6

/-- Embeds fsm.getProblemButtons (fsm.go lines 336-382): one `goto` button
per step whose key equals one of the hardcoded problem keywords. -/
def getProblemButtons (w : World) (scenarioID : Int) : List Button :=
  (GetFSMScenarioSteps w scenarioID).filterMap fun step =>
    if problemKeywords.any (fun kw => goStartsWith kw step.stepKey && step.stepKey == kw) then
      some ⟨problemButtonText step.message, encodeGotoToken scenarioID step.stepKey⟩
    else none

/-- The suffix-to-label switch of fsm.getDiagnosticButtons (fsm.go lines
401-444); `none` embeds the `default: continue` arm (the button is
skipped). -/
def suffixButtonText (suffix : GoStr) : Option GoStr :=
  if suffix = str "lit" ∨ suffix = str "ok" ∨ suffix = str "yes" ∨
     suffix = str "reacts" ∨ suffix = str "turns" ∨ suffix = str "disk_turns" then
    some (str "Да")
  else if suffix = str "dark" ∨ suffix = str "no" ∨ suffix = str "not_ok" ∨
     suffix = str "no_reaction" ∨ suffix = str "disk_stuck" ∨
     suffix = str "immediately" ∨ suffix = str "hot" ∨ suffix = str "not_hot" ∨
     suffix = str "strong_vibration" ∨ suffix = str "grinding_noise" ∨
     suffix = str "other_noise" then
    some (str "Нет")
  else if suffix = str "power_ok" then some (str "Да, работает")
  else if suffix = str "no_power" then some (str "Нет, не работает")
  else if suffix = str "locks_ok" then some (str "Да, в порядке")
  else if suffix = str "locks_not_ok" then some (str "Нет, проблемы")
  else if suffix = str "belt_ok" then some (str "Да, целый")
  else if suffix = str "belt_broken" then some (str "Нет, повреждён")
  else if suffix = str "disk_ok" then some (str "Да, в порядке")
  else if suffix = str "disk_problem" then some (str "Нет, проблемы")
  else if suffix = str "blade_ok" then some (str "Да, правильно")
  else if suffix = str "blade_not_ok" then some (str "Нет, проблемы")
  else if suffix = str "clutch_ok" then some (str "Нет, муфта не сработала")
  else if suffix = str "clutch_triggered" then some (str "Да, муфта сработала")
  else if suffix = str "old" then some (str "Да, старый")
  else if suffix = str "new" then some (str "Нет, новый")
  else if suffix = str "clear" then some (str "Да, чистый")
  else if suffix = str "blocked" then some (str "Нет, заблокирован")
  else if suffix = str "wheels_ok" then some (str "Да, одинаково")
  else if suffix = str "wheels_not_level" then some (str "Нет, разная высота")
  else none

/-- Embeds fsm.getDiagnosticButtons (fsm.go lines 384-454): for every step
whose key extends `currentStepKey + "_"`, a `goto` button labelled from
the trailing suffix; steps with an unmapped suffix are skipped. -/
def getDiagnosticButtons (w : World) (scenarioID : Int) (currentStepKey : GoStr) :
    List Button :=
  let baseKey := currentStepKey ++ ['_']
  (GetFSMScenarioSteps w scenarioID).filterMap fun step =>
    if goStartsWith baseKey step.stepKey then
      match suffixButtonText (goTrimPre baseKey step.stepKey) with
      | some text => some ⟨text, encodeGotoToken scenarioID step.stepKey⟩
      | none => none
    else none

/-- Embeds fsm.parseButtonsFromMessage (fsm.go lines 478-500): numbered
lines "1."/"2."/"3." of the message become `option_<id>_<stepKey>_<n>`
buttons. -/
def parseButtonsFromMessage (message : GoStr) (scenarioID : Int) (stepKey : GoStr) :
    List Button :=
  (goSplit '\n' message).filterMap fun rawLine =>
    let line := trimSpace rawLine
    if goStartsWith (str "1.") line || goStartsWith (str "2.") line ||
       goStartsWith (str "3.") line then
      match goSplitN '.' 2 line with
      | [p0, p1] =>
        some ⟨trimSpace p1,
              str "option_" ++ intToChars scenarioID ++ '_' :: stepKey ++ '_' :: p0⟩
      | _ => none
    else none

/-- Embeds fsm.GenerateButtonsForStep (fsm.go lines 282-333). -/
def GenerateButtonsForStep (w : World) (step : FSMScenarioStep) (scenarioID : Int) :
    List Button :=
  if step.stateType = str "start" then
    if step.stepKey = str "root" then getProblemButtons w scenarioID
    else parseButtonsFromMessage step.message scenarioID step.stepKey
  else if step.stateType = str "intermediate" then
    let diagnosticButtons := getDiagnosticButtons w scenarioID step.stepKey
    let base := if diagnosticButtons ≠ [] then diagnosticButtons
                else parseButtonsFromMessage step.message scenarioID step.stepKey
    base ++ [backButtonFor scenarioID step.stepKey]
  else if step.stateType = str "final" then
    [backButtonFor scenarioID step.stepKey]
  else
    let diagnosticButtons := getDiagnosticButtons w scenarioID step.stepKey
    let base := if diagnosticButtons ≠ [] then diagnosticButtons
                else parseButtonsFromMessage step.message scenarioID step.stepKey
    base ++ [backButtonFor scenarioID step.stepKey]

/-- Embeds fsm.GetScenariosButtons (fsm.go lines 745-764): a
`start_scenario_<id>` button per scenario, labelled by the display name
when non-empty, else the name. -/
def GetScenariosButtons (w : World) : List Button :=
  w.scenarios.map fun sc =>
    ⟨if sc.displayName = [] then sc.name else sc.displayName,
     str "start_scenario_" ++ intToChars sc.id⟩

/-!
The УШМ (angle-grinder) trigger helper and canned diagnostic texts
(fsm.go lines 656-707, identical in `src/unnamed/part_003`).
-/

def containsUSHMTrigger (message : GoStr) : Bool :=
  [str "не включается", str "не запускается", str "молчит",
   str "не жужжит", str "не крутит"].any fun trigger =>
    goContainsSub trigger message

def GetUSHMStep1Response : GoStr :=
  str "Понял, проблема с запуском. Что именно происходит? Опишите, пожалуйста, подробнее: устройство совсем не реагирует на нажатие кнопки, или есть какие-то звуки, индикация?"

def GetUSHMStep2Response : GoStr :=
  str "Давайте попробуем продиагностировать проблему:\n\n1. Проверьте, нажимаете ли вы рычажок предохранителя (обычно находится на корпусе)\n2. Убедитесь, что розетка работает (проверьте другим устройством)\n3. Осмотрите кабель на наличие повреждений\n4. Если есть кнопка блокировки шпинделя - убедитесь, что она не зажата\n\nПроверьте эти моменты и напишите результат."

def GetUSHMFinalResponse : GoStr :=
  str "Если эти действия не помогли, возможно, требуется диагностика щёток, кнопки включения или обмотки двигателя. В этом случае рекомендую обратиться в сервисный центр.\n\nЧем ещё могу помочь?"

namespace Legacy

/-- Embeds the earlier in-memory FSM's ProcessMessage
(`src/unnamed/part_003` lines 46-84): a pure function of the current
overlay state and the incoming message, returning
(response, new state, handled). It performs no storage access at all. -/
def ProcessMessage (currentState : GoStr) (message : GoStr) :
    GoStr × GoStr × Bool :=
  let messageLower := goToLower (trimSpace message)
  if currentState = StateIdle ∧ containsUSHMTrigger messageLower then
    (GetUSHMStep1Response, StateUSHMNotStartingStep1, true)
  else if currentState = StateUSHMNotStartingStep1 then
    (GetUSHMStep2Response, StateUSHMNotStartingStep2, true)
  else if currentState = StateUSHMNotStartingStep2 then
    (GetUSHMFinalResponse, StateIdle, true)
  else if currentState = StateAwaitingEmail then
    if IsValidEmail message then
      (str "Спасибо! Разрешаете ли вы получать технические рекомендации и инструкции по эксплуатации на этот email? Это не реклама.",
       StateAwaitingEmailConsent, true)
    else
      (str "Пожалуйста, введите корректный email адрес.", StateAwaitingEmail, true)
  else if currentState = StateOfferingSiteLink then
    ([], currentState, false)
  else if currentState = StateAwaitingEmailConsent then
    ([], currentState, false)
  else
    ([], currentState, false)

end Legacy

/-!
The DB-backed dialogue engine fsm.(*FSM).ProcessMessage
(`src/internal/fsm/fsm.go` lines 53-152).
-/

/-- The scenario-start block shared by the NLU and the keyword branch of
ProcessMessage (fsm.go lines 70-83 and 91-104): look up the first step;
when it exists, point the session at it and answer with its message and
buttons; `none` when the scenario has no steps (control then falls
through in the Go code). -/
def startScenario (w : World) (sc : FSMScenario) :
    Option (World × GoStr × List Button × Bool) :=
  match GetFirstStep w sc.id with
  | none => none
  | some step =>
    let w1 := UpdateUserSession w sc.id step.stepKey
    some (w1, step.message, GenerateButtonsForStep w1 step sc.id, true)

/-- Embeds fsm.(*FSM).ProcessMessage (fsm.go lines 53-152). Storage
errors cannot occur in the pure model. The optional NLU classification
(recognizeScenarioWithAI, an HTTP call to an OpenAI-compatible service)
is an external collaborator and enters as the oracle argument `ai`;
`ai = none` covers "no classification", an NLU error, and an unmatched
name alike — all of which fall through to keyword matching in the Go
code. Returns the new world, the response text, the buttons, and the
handled flag. -/
def ProcessMessage (w : World) (ai : Option FSMScenario) (message : GoStr) :
    World × GoStr × List Button × Bool :=
  match GetUserSession w with
  | none =>
    let afterAI : Option (World × GoStr × List Button × Bool) :=
      if w.openAIEnabled then
        match ai with
        | some sc => startScenario w sc
        | none => none
      else none
    match afterAI with
    | some r => r
    | none =>
      match GetFSMScenarioByTrigger w message with
      | some sc =>
        match startScenario w sc with
        | some r => r
        | none => (w, [], [], false)
      | none => (w, [], [], false)
  | some (scenarioID, currentStepKey) =>
    match GetFSMScenarioStep w scenarioID currentStepKey with
    | none => (DeleteUserSession w, [], [], false)
    | some step =>
      if step.isFinal then (DeleteUserSession w, step.message, [], true)
      else
        match step.nextStepKey with
        | none => (DeleteUserSession w, step.message, [], true)
        | some nextKey =>
          match GetFSMScenarioStep w scenarioID nextKey with
          | none => (DeleteUserSession w, step.message, [], true)
          | some nextStep =>
            let w1 := UpdateUserSession w scenarioID nextStep.stepKey
            (w1, nextStep.message, GenerateButtonsForStep w1 nextStep scenarioID, true)

/-!
The Telegram handlers of `src/internal/bot/bot.go` (the snapshot at lines
1-872 of that file, the one the claims cite). Message sending and message
logging are transport effects; a handler is embedded as the new world
plus the optional reply `(text, buttons)` it sends. `b.api.Send` failures
and `LogMessage` are not modelled (they affect no stored dialogue state).
-/

def genericResponse : GoStr :=
  str "Я вас понял. Если возникнут проблемы с электроинструментом, опишите их подробнее, и я постараюсь помочь!"

/-- Embeds `message.IsCommand() && message.Command() == "start"` for a
plain text message (the only command the bot handles). -/
def isStartCommand (text : GoStr) : Bool :=
  text == str "/start"

/-- Embeds bot.handleStartCommand (bot.go lines 187-221): reset the
overlay state to idle, clear the session, reply with the start message
and the scenario-selection buttons. -/
def handleStartCommand (w : World) : World × Option Reply :=
  let w1 := UpdateUserFSMState w StateIdle
  let w2 := DeleteUserSession w1
  (w2, some ⟨GetStartMessage, GetScenariosButtons w2⟩)

/-- Embeds bot.offerSiteLink (bot.go lines 224-253): set the overlay
state to offering_site_link and reply with the offer and Yes/No buttons.
It does not touch the message count or the session. -/
def offerSiteLink (w : World) : World × Option Reply :=
  let w1 := UpdateUserFSMState w StateOfferingSiteLink
  (w1, some ⟨GetSiteLinkOfferMessage,
    [⟨str "Да", str "site_link_yes"⟩, ⟨str "Нет", str "site_link_no"⟩]⟩)

/-- Embeds bot.handleMessage (bot.go lines 61-184): rate limit, get or
create the user, handle /start, increment and reload the message count,
offer the site link when the count equals the trigger and the overlay is
idle, otherwise run the dialogue engine. -/
def handleMessage (now : Int) (ai : Option FSMScenario) (w : World)
    (text : GoStr) : World × Option Reply :=
  let rateResult := CheckRateLimit now w.rate w.rateLimitPerMin
  if !rateResult.1 then (w, some ⟨GetRateLimitMessage, []⟩)
  else
    let w1 := { w with rate := rateResult.2 }
    let w2 := (GetOrCreateUser w1).2
    if isStartCommand text then handleStartCommand w2
    else
      let w3 := UpdateUserMessageCount w2
      match GetUser w3 with
      | none => (w3, none)
      | some u =>
        let settings := GetSettings w3
        if u.messageCount = settings.triggerMessageCount ∧ u.fsmState = StateIdle then
          offerSiteLink w3
        else
          let r := ProcessMessage w3 ai text
          if r.2.2.2 ∧ r.2.1 ≠ [] then (r.1, some ⟨r.2.1, r.2.2.1⟩)
          else if ¬ r.2.2.2 then (r.1, some ⟨genericResponse, []⟩)
          else (r.1, none)

/-- Embeds bot.handleSiteLinkYes (bot.go lines 331-350). -/
def handleSiteLinkYes (w : World) : World × Option Reply :=
  let w1 := UpdateUserFSMState w StateAwaitingEmail
  (w1, some ⟨GetEmailRequestMessage, []⟩)

/-- Embeds bot.handleSiteLinkNo (bot.go lines 353-378). -/
def handleSiteLinkNo (w : World) : World × Option Reply :=
  let w1 := ResetUserMessageCount w
  let w2 := UpdateUserFSMState w1 StateIdle
  (w2, some ⟨GetSiteLinkDeclinedMessage, []⟩)

/-- Embeds bot.handleSiteLinkYesPost (bot.go lines 381-411). -/
def handleSiteLinkYesPost (w : World) : World × Option Reply :=
  let w1 := ResetUserMessageCount w
  let w2 := UpdateUserFSMState w1 StateOfferingSitePost
  (w2, some ⟨GetSiteLinkOfferPost (GetSettings w2).siteURL, []⟩)

/-- Embeds bot.handleSiteLinkNoPost (bot.go lines 414-441). -/
def handleSiteLinkNoPost (w : World) : World × Option Reply :=
  let w1 := ResetUserMessageCount w
  let w2 := UpdateUserFSMState w1 StateIdle
  (w2, some ⟨str "Можете продолжать консультацию. Если возникнут другие вопросы по электроинструменту, напишите мне.", []⟩)

/-- Embeds bot.handleEmailConsentYes (bot.go lines 444-471); `u` is the
user row loaded by handleCallbackQuery. -/
def handleEmailConsentYes (u : UserRec) (w : World) : World × Option Reply :=
  let w1 := if u.email ≠ [] then UpdateUserEmail w u.email true else w
  let w2 := UpdateUserFSMState w1 StateIdle
  (w2, some ⟨GetEmailSavedMessage (GetSettings w2).siteURL, []⟩)

/-- Embeds bot.handleEmailConsentNo (bot.go lines 474-493). -/
def handleEmailConsentNo (w : World) : World × Option Reply :=
  let w1 := UpdateUserFSMState w StateIdle
  (w1, some ⟨GetEmailDeclinedMessage (GetSettings w1).siteURL, []⟩)

/-- Embeds bot.handleEmailConfirm (bot.go lines 496-533). -/
def handleEmailConfirm (w : World) (data : GoStr) : World × Option Reply :=
  let email := goTrimPre (str "email_confirm_") data
  let w1 := UpdateUserEmail w email false
  let w2 := UpdateUserFSMState w1 StateAwaitingEmailConsent
  (w2, some ⟨GetEmailConsentMessage,
    [⟨str "Разрешаю", str "email_consent_yes"⟩,
     ⟨str "Нет, спасибо", str "email_consent_no"⟩]⟩)

/-- Embeds bot.handleStartScenario (bot.go lines 536-590): parse the id
strictly (a parse error returns), check the scenario exists, start at its
first step. -/
def handleStartScenario (w : World) (data : GoStr) : World × Option Reply :=
  match goAtoi (goTrimPre (str "start_scenario_") data) with
  | none => (w, none)
  | some scenarioID =>
    match GetFSMScenario w scenarioID with
    | none => (w, none)
    | some _ =>
      match GetFirstStep w scenarioID with
      | none => (w, none)
      | some step =>
        let w1 := UpdateUserSession w scenarioID step.stepKey
        (w1, some ⟨step.message, GenerateButtonsForStep w1 step scenarioID⟩)

/-- Embeds bot.handleOption (bot.go lines 593-650): split on every
underscore, need at least 4 parts, target key is `<part2>_<part3>`. -/
def handleOption (w : World) (data : GoStr) : World × Option Reply :=
  match goSplit '_' data with
  | _ :: p1 :: p2 :: p3 :: _ =>
    let scenarioID := goAtoiOrZero p1
    match (GetFSMScenarioSteps w scenarioID).find?
        (fun st => st.stepKey = p2 ++ '_' :: p3) with
    | none => (w, none)
    | some nextStep =>
      let w1 := UpdateUserSession w scenarioID nextStep.stepKey
      (w1, some ⟨nextStep.message, GenerateButtonsForStep w1 nextStep scenarioID⟩)
  | _ => (w, none)

/-- Token parsing of bot.handleGoto (bot.go lines 656-662):
`strings.SplitN(data, "_", 3)`, at least 3 parts, scenario id via Atoi
with the error ignored, step key is the whole third part (which may
itself contain underscores). -/
def parseGotoToken (data : GoStr) : Option (Int × GoStr) :=
  match goSplitN '_' 3 data with
  | _ :: p1 :: p2 :: _ => some (goAtoiOrZero p1, p2)
  | _ => none

/-- Embeds bot.handleGoto (bot.go lines 653-701). -/
def handleGoto (w : World) (data : GoStr) : World × Option Reply :=
  match parseGotoToken data with
  | none => (w, none)
  | some (scenarioID, stepKey) =>
    match GetFSMScenarioStep w scenarioID stepKey with
    | none => (w, none)
    | some step =>
      let w1 := UpdateUserSession w scenarioID step.stepKey
      (w1, some ⟨step.message, GenerateButtonsForStep w1 step scenarioID⟩)

/-- Embeds bot.handleAction (bot.go lines 736-779): split on every
underscore, need at least 3 parts, action key is the third part only. -/
def handleAction (w : World) (data : GoStr) : World × Option Reply :=
  match goSplit '_' data with
  | _ :: p1 :: p2 :: _ =>
    let scenarioID := goAtoiOrZero p1
    match GetFSMScenarioStep w scenarioID p2 with
    | none => (w, none)
    | some step =>
      let w1 := UpdateUserSession w scenarioID step.stepKey
      (w1, some ⟨step.message, GenerateButtonsForStep w1 step scenarioID⟩)
  | _ => (w, none)

/-- Embeds bot.handleBack (bot.go lines 782-867): split on every
underscore (so the parsed current key is only the first segment of a
multi-segment step key), need at least 3 parts; on `root` clear the
session and show scenario selection, otherwise fetch the step at
GetPreviousStepKey of the parsed key and move the session there. -/
def handleBack (w : World) (data : GoStr) : World × Option Reply :=
  match goSplit '_' data with
  | _ :: p1 :: p2 :: _ =>
    let scenarioID := goAtoiOrZero p1
    if p2 = str "root" then
      let w1 := DeleteUserSession w
      (w1, some ⟨GetStartMessage, GetScenariosButtons w1⟩)
    else
      match GetFSMScenarioStep w scenarioID (GetPreviousStepKey p2) with
      | none => (w, none)
      | some step =>
        let w1 := UpdateUserSession w scenarioID step.stepKey
        (w1, some ⟨step.message, GenerateButtonsForStep w1 step scenarioID⟩)
  | _ => (w, none)

/-- The dispatch conditions of bot.handleCallbackQuery (bot.go lines
285-325), in their order of evaluation. -/
def recognizedCallback (data : GoStr) : Bool :=
  data == str "site_link_yes" || data == str "site_link_no" ||
  data == str "site_link_yes_post" || data == str "site_link_no_post" ||
  data == str "email_consent_yes" || data == str "email_consent_no" ||
  goStartsWith (str "email_confirm_") data ||
  goStartsWith (str "start_scenario_") data ||
  goStartsWith (str "option_") data ||
  goStartsWith (str "goto_") data ||
  goStartsWith (str "action_") data ||
  goStartsWith (str "back_") data

/-- Embeds bot.handleCallbackQuery (bot.go lines 256-328): load the user
(return when unknown), read the settings, answer the transport callback,
then dispatch on the token; an unrecognized token is only logged — no
state is written and no reply is sent. -/
def handleCallbackQuery (w : World) (data : GoStr) : World × Option Reply :=
  match GetUser w with
  | none => (w, none)
  | some user =>
    if data = str "site_link_yes" then handleSiteLinkYes w
    else if data = str "site_link_no" then handleSiteLinkNo w
    else if data = str "site_link_yes_post" then handleSiteLinkYesPost w
    else if data = str "site_link_no_post" then handleSiteLinkNoPost w
    else if data = str "email_consent_yes" then handleEmailConsentYes user w
    else if data = str "email_consent_no" then handleEmailConsentNo w
    else if goStartsWith (str "email_confirm_") data then handleEmailConfirm w data
    else if goStartsWith (str "start_scenario_") data then handleStartScenario w data
    else if goStartsWith (str "option_") data then handleOption w data
    else if goStartsWith (str "goto_") data then handleGoto w data
    else if goStartsWith (str "action_") data then handleAction w data
    else if goStartsWith (str "back_") data then handleBack w data
    else (w, none)

/-- One inbound transport event: a text message (with the wall clock and
the NLU oracle it needs) or a button press. -/
inductive Event where
  | message (now : Int) (ai : Option FSMScenario) (text : GoStr)
  | callback (data : GoStr)

/-- The world after one inbound event: the state part of bot.handleMessage
or bot.handleCallbackQuery. -/
def stepWorld (w : World) : Event → World
  | Event.message now ai text => (handleMessage now ai w text).1
  | Event.callback data => (handleCallbackQuery w data).1

/-- Session integrity: whenever the user's session is non-null, its
(scenario id, current step key) pair resolves to a step in the store. -/
def SessionValid (w : World) : Prop :=
  ∀ scenarioID stepKey, w.session = some (scenarioID, stepKey) →
    (GetFSMScenarioStep w scenarioID stepKey).isSome

/-!
Claim theorems.
-/

/-- C6: `GetPreviousStepKey` removes the last underscore-delimited segment
of the current step key, returning "root" when the remainder is empty or
equals "root" (stated as equality with `specPreviousStepKey`, the spec's
own description of the transform); in particular
`previousStepKey("a_b_c") = "a_b"`, `previousStepKey("a") = "root"` and
`previousStepKey("root") = "root"`. -/
theorem c6_previousStepKey_spec :
    (∀ k : GoStr, GetPreviousStepKey k = specPreviousStepKey k) ∧
    GetPreviousStepKey (str "a_b_c") = str "a_b" ∧
    GetPreviousStepKey (str "a") = str "root" ∧
    GetPreviousStepKey (str "root") = str "root" :=
  ⟨getPreviousStepKey_eq_spec, by decide, by decide, by decide⟩

/-- C5: encoding a goto token for (scenarioID = 3,
stepKey = "no_power_indicator_lit") and decoding it recovers the pair;
in general, for every scenario id and every step key (undersores in the
key included) the goto decoder recovers exactly the encoded pair, and the
decoder's SplitN splits any token into at most 3 parts. -/
theorem c5_goto_roundtrip :
    parseGotoToken (encodeGotoToken 3 (str "no_power_indicator_lit")) =
      some (3, str "no_power_indicator_lit") ∧
    (∀ (scenarioID : Int) (stepKey : GoStr),
      parseGotoToken (encodeGotoToken scenarioID stepKey) =
        some (scenarioID, stepKey)) ∧
    (∀ data : GoStr, (goSplitN '_' 3 data).length ≤ 3) := by
  refine ⟨by decide, ?_, fun data => goSplitN_length_le '_' 3 data⟩
  intro scenarioID stepKey
  have e1 : encodeGotoToken scenarioID stepKey =
      str "goto" ++ '_' :: (intToChars scenarioID ++ '_' :: stepKey) := by
    show str "goto_" ++ intToChars scenarioID ++ '_' :: stepKey = _
    rw [show (str "goto_") = str "goto" ++ ['_'] by rfl]
    simp
  have e2 : goSplitN '_' 3 (encodeGotoToken scenarioID stepKey) =
      [str "goto", intToChars scenarioID, stepKey] := by
    rw [e1]
    rw [show (3 : Nat) = 1 + 2 by rfl]
    rw [goSplitN_append '_' 1 _ _ (by decide)]
    rw [show (1 + 1 : Nat) = 0 + 2 by rfl]
    rw [goSplitN_append '_' 0 _ _ (goContainsChar_intToChars scenarioID)]
    rfl
  unfold parseGotoToken
  rw [e2]
  simp [goAtoiOrZero_intToChars]

/-- C4: `CheckRateLimit` discards the stored entries older than 60
seconds, returns false exactly when at least `maxPerMinute` entries are
retained, and otherwise appends the current timestamp, persists the
pruned-plus-appended list and returns true; a rejected call leaves the
stored list untouched. -/
theorem c4_checkRateLimit_spec (now : Int) (stored : List Int)
    (maxPerMinute : Int) :
    ((CheckRateLimit now stored maxPerMinute).1 = false ↔
      maxPerMinute ≤ ((stored.filter (fun ts => now - ts ≤ 60)).length : Int)) ∧
    ((CheckRateLimit now stored maxPerMinute).1 = true →
      (CheckRateLimit now stored maxPerMinute).2 =
        stored.filter (fun ts => now - ts ≤ 60) ++ [now]) ∧
    ((CheckRateLimit now stored maxPerMinute).1 = false →
      (CheckRateLimit now stored maxPerMinute).2 = stored) := by
  have hfe : stored.filter (fun ts => decide (now - 60 ≤ ts)) =
      stored.filter (fun ts => decide (now - ts ≤ 60)) := by
    apply List.filter_congr
    intro a _
    rw [decide_eq_decide]
    omega
  dsimp only [CheckRateLimit]
  rw [hfe]
  by_cases h : maxPerMinute ≤
      ((stored.filter (fun ts => now - ts ≤ 60)).length : Int)
  · rw [if_pos h]
    exact ⟨Iff.intro (fun _ => h) (fun _ => rfl),
           fun ht => absurd ht (by simp),
           fun _ => rfl⟩
  · rw [if_neg h]
    exact ⟨Iff.intro (fun ht => absurd ht (by simp)) (fun hc => absurd hc h),
           fun _ => rfl,
           fun hf2 => absurd hf2 (by simp)⟩

/-- Witness for C4 at a concrete input: two of three stored timestamps
are within the window, so with limit 2 the call is rejected and the
stored list is untouched. -/
theorem c4_checkRateLimit_witness :
    (CheckRateLimit 1000 [990, 900, 1000] 2).1 = false ∧
    (CheckRateLimit 1000 [990, 900, 1000] 2).2 = [990, 900, 1000] := by
  have h := c4_checkRateLimit_spec 1000 [990, 900, 1000] 2
  have h1 : (CheckRateLimit 1000 [990, 900, 1000] 2).1 = false :=
    h.1.mpr (by decide)
  exact ⟨h1, h.2.2 h1⟩

/-- Counterexample for C7 as stated: with `maxPerMinute = 0` both calls
are rejected, and the rejected call does not prune the stored row: the
user whose single stored timestamp 100 is older than 60 seconds (at
`now = 1000`) keeps `[100]`, while the user with no history keeps `[]`.
The two calls therefore do not behave identically. -/
theorem c7_idempotence_counterexample :
    (100 : Int) < 1000 - 60 ∧
    CheckRateLimit 1000 [100] 0 ≠ CheckRateLimit 1000 [] 0 := by decide

/-- C7 amended: for a user whose stored timestamps are all older than 60
seconds, `CheckRateLimit` returns the same admission decision as for a
user with no stored history, and whenever `maxPerMinute ≥ 1` (so the
fresh call is admitted) the whole behaviour — decision and persisted
list — is identical. -/
theorem c7_idempotence_amended (now : Int) (stored : List Int)
    (maxPerMinute : Int) (hold : ∀ ts ∈ stored, ts < now - 60) :
    (CheckRateLimit now stored maxPerMinute).1 =
      (CheckRateLimit now [] maxPerMinute).1 ∧
    (1 ≤ maxPerMinute →
      CheckRateLimit now stored maxPerMinute =
        CheckRateLimit now [] maxPerMinute) := by
  have hf : stored.filter (fun ts => decide (now - 60 ≤ ts)) = [] := by
    rw [List.filter_eq_nil_iff]
    intro a ha
    have := hold a ha
    simp
    omega
  constructor
  · dsimp only [CheckRateLimit]
    rw [hf]
    simp only [List.filter_nil, List.length_nil, Nat.cast_zero, List.nil_append]
    by_cases h : maxPerMinute ≤ (0 : Int)
    · rw [if_pos h, if_pos h]
    · rw [if_neg h, if_neg h]
  · intro hmax
    dsimp only [CheckRateLimit]
    rw [hf]
    simp only [List.filter_nil, List.length_nil, Nat.cast_zero, List.nil_append]
    have h : ¬ maxPerMinute ≤ (0 : Int) := by omega
    rw [if_neg h, if_neg h]

/-- Witness for C7 at a concrete input: stored `[100]` is all older than
60 seconds at `now = 1000`; with limit 1 both calls behave identically. -/
theorem c7_idempotence_witness :
    (CheckRateLimit 1000 [100] 1).1 = (CheckRateLimit 1000 [] 1).1 ∧
    CheckRateLimit 1000 [100] 1 = CheckRateLimit 1000 [] 1 := by
  have h := c7_idempotence_amended 1000 [100] 1 (by decide)
  exact ⟨h.1, h.2 (by decide)⟩

/-- C9: a text received in the AwaitingEmail overlay state that fails
the email grammar leaves the overlay in AwaitingEmail, replies with the
re-prompt text, and is handled; the legacy FSM's ProcessMessage is a pure
function, so no stored email or consent field is touched. -/
theorem c9_awaiting_email_invalid (message : GoStr)
    (h : IsValidEmail message = false) :
    Legacy.ProcessMessage StateAwaitingEmail message =
      (str "Пожалуйста, введите корректный email адрес.",
       StateAwaitingEmail, true) := by
  unfold Legacy.ProcessMessage
  rw [if_neg (fun hc => absurd hc.1 (by decide))]
  rw [if_neg (by decide), if_neg (by decide), if_pos rfl,
      if_neg (by simp [h])]

/-- Witness for C9 at the spec's concrete input "not-an-email". -/
theorem c9_awaiting_email_witness :
    IsValidEmail (str "not-an-email") = false ∧
    Legacy.ProcessMessage StateAwaitingEmail (str "not-an-email") =
      (str "Пожалуйста, введите корректный email адрес.",
       StateAwaitingEmail, true) :=
  ⟨by decide, c9_awaiting_email_invalid (str "not-an-email") (by decide)⟩

/-!
Concrete worlds for counterexamples and witnesses.
-/

/-- A start step with key "root". -/
def stRootEx : FSMScenarioStep :=
  ⟨str "root", str "Выберите проблему:", false, none, str "start"⟩

/-- An intermediate step one level below root. -/
def stNoPowerEx : FSMScenarioStep :=
  ⟨str "no_power", str "Устройство не включается. Горит ли индикатор?",
   false, none, str "intermediate"⟩

/-- A final step two levels below root. -/
def stNoPowerLitEx : FSMScenarioStep :=
  ⟨str "no_power_lit", str "Проверьте кнопку включения.", false, none, str "final"⟩

/-- A diagnostic scenario with id 3. -/
def scenarioEx : FSMScenario :=
  ⟨3, str "miter_saw", str "Торцовочная пила", [str "пила"],
   str "диагностика пилы"⟩

/-- World for the back-navigation evaluation: scenario 3 holds the chain
root → no_power → no_power_lit and the session sits on no_power_lit. -/
def wBackEx : World :=
  ⟨[scenarioEx], [(3, stRootEx), (3, stNoPowerEx), (3, stNoPowerLitEx)],
   some (3, str "no_power_lit"), some ⟨0, StateIdle, [], false⟩,
   ⟨4, str "https://example.com"⟩, [], 10, false⟩

/-- An intermediate step listed before the root step. -/
def stepPositionalEx : FSMScenarioStep :=
  ⟨str "power_check", str "Проверьте питание.", false, none, str "intermediate"⟩

/-- World for the first-step evaluation: scenario 1's step list has
power_check positionally first and root second. -/
def wFirstStepEx : World :=
  ⟨[⟨1, str "s1", [], [], []⟩], [(1, stepPositionalEx), (1, stRootEx)],
   none, none, ⟨3, str "u"⟩, [], 10, false⟩

/-- World for the site-link-offer evaluation: overlay idle, message count
3, trigger threshold 4 (the next message reaches the threshold). -/
def wOfferEx : World :=
  ⟨[], [], none, some ⟨3, StateIdle, [], false⟩,
   ⟨4, str "https://example.com"⟩, [], 10, false⟩

/-- Same world but with message count 4: the next message puts the count
strictly above the threshold. -/
def wOverEx : World :=
  ⟨[], [], none, some ⟨4, StateIdle, [], false⟩,
   ⟨4, str "https://example.com"⟩, [], 10, false⟩

/-- World for the unknown-callback evaluation. -/
def wUnknownEx : World :=
  ⟨[], [], none, some ⟨0, StateIdle, [], false⟩, ⟨4, str "u"⟩, [], 10, false⟩

/-- C1 (the code evaluated at the failing input): for the token
`back_3_no_power_lit`, the claim's target `previousStepKey("no_power_lit")`
is "no_power" and that step exists in the store, yet handleBack — which
splits the token on every underscore and reads only the first segment
"no" of the step key — moves the session to (3, "root") instead. -/
theorem c1_handleBack_truncates :
    GetPreviousStepKey (str "no_power_lit") = str "no_power" ∧
    (GetFSMScenarioStep wBackEx 3 (str "no_power")).isSome = true ∧
    (handleBack wBackEx (str "back_3_no_power_lit")).1.session =
      some (3, str "root") ∧
    some ((3 : Int), str "root") ≠ some ((3 : Int), str "no_power") := by decide

/-- Counterexample for C2 as stated: scenario 1's step list contains the
root step, but GetFirstStep returns the positionally first step
power_check, not the root step. -/
theorem c2_firstStep_counterexample :
    stRootEx ∈ GetFSMScenarioSteps wFirstStepEx 1 ∧
    stRootEx.stepKey = str "root" ∧
    GetFirstStep wFirstStepEx 1 = some stepPositionalEx ∧
    stepPositionalEx.stepKey ≠ str "root" := by decide

/-- C2 amended: GetFirstStep returns the positionally first step of the
scenario's step list whenever that list is non-empty — with no preference
for a step with step_key "root" — and any step it returns belongs to the
scenario's step list. -/
theorem c2_firstStep_positional (w : World) (scenarioID : Int)
    (st : FSMScenarioStep) (rest : List FSMScenarioStep)
    (h : GetFSMScenarioSteps w scenarioID = st :: rest) :
    GetFirstStep w scenarioID = some st ∧
    ∀ st2, GetFirstStep w scenarioID = some st2 →
      st2 ∈ GetFSMScenarioSteps w scenarioID := by
  constructor
  · unfold GetFirstStep
    rw [h]
  · intro st2 h2
    unfold GetFirstStep at h2
    rw [h] at h2
    simp only [Option.some.injEq] at h2
    rw [h, h2]
    exact List.mem_cons_self st2 rest

/-- Witness for C2's amended theorem at the concrete world. -/
theorem c2_firstStep_positional_witness :
    GetFirstStep wFirstStepEx 1 = some stepPositionalEx ∧
    stepPositionalEx ∈ GetFSMScenarioSteps wFirstStepEx 1 := by
  have h := c2_firstStep_positional wFirstStepEx 1 stepPositionalEx
    [stRootEx] (by decide)
  exact ⟨h.1, h.2 stepPositionalEx h.1⟩

/-- Counterexample for C3 as stated: (a) when the incremented count
equals the trigger (4 = 4) the overlay does transition, but the count is
left at 4 — it is not reset to 0; (b) when the incremented count exceeds
the trigger (5 ≥ 4) no transition happens at all — the overlay stays
idle, because the code compares with `==`, not `≥`. -/
theorem c3_offer_counterexample :
    ((handleMessage 1000 none wOfferEx (str "привет")).1.user.map
        UserRec.fsmState = some StateOfferingSiteLink) ∧
    ((handleMessage 1000 none wOfferEx (str "привет")).1.user.map
        UserRec.messageCount = some 4) ∧
    some (4 : Int) ≠ some (0 : Int) ∧
    ((handleMessage 1000 none wOverEx (str "привет")).1.user.map
        UserRec.fsmState = some StateIdle) ∧
    StateIdle ≠ StateOfferingSiteLink := by decide

/-- C3 amended: for every non-command message that passes the rate
limiter while the overlay is Idle and the incremented message count
equals (not merely exceeds) the trigger threshold, the overlay
transitions to OfferingSiteLink and the reply presents the Yes/No
buttons; the diagnostic session is left unmodified, and the message
count is not reset at this transition — it keeps the threshold value
(it is only reset later, when the user answers the offer). -/
theorem c3_offer_transition (now : Int) (ai : Option FSMScenario)
    (w : World) (text : GoStr) (u : UserRec)
    (hrate : (CheckRateLimit now w.rate w.rateLimitPerMin).1 = true)
    (hcmd : isStartCommand text = false)
    (huser : w.user = some u)
    (hcount : u.messageCount + 1 = w.settings.triggerMessageCount)
    (hidle : u.fsmState = StateIdle) :
    (handleMessage now ai w text).1.session = w.session ∧
    (handleMessage now ai w text).1.user =
      some { u with messageCount := u.messageCount + 1,
                    fsmState := StateOfferingSiteLink } ∧
    (handleMessage now ai w text).2 =
      some ⟨GetSiteLinkOfferMessage,
        [⟨str "Да", str "site_link_yes"⟩, ⟨str "Нет", str "site_link_no"⟩]⟩ := by
  have hall : handleMessage now ai w text =
      (UpdateUserFSMState
        (UpdateUserMessageCount
          { w with rate := (CheckRateLimit now w.rate w.rateLimitPerMin).2 })
        StateOfferingSiteLink,
       some ⟨GetSiteLinkOfferMessage,
         [⟨str "Да", str "site_link_yes"⟩, ⟨str "Нет", str "site_link_no"⟩]⟩) := by
    dsimp only [handleMessage]
    rw [hrate]
    rw [if_neg (by simp)]
    rw [hcmd]
    rw [if_neg (by simp)]
    dsimp only [GetOrCreateUser]
    rw [huser]
    dsimp only [UpdateUserMessageCount, GetUser, GetSettings, Option.map_some']
    rw [if_pos ⟨hcount, hidle⟩]
    dsimp only [offerSiteLink, UpdateUserFSMState, UpdateUserMessageCount,
      Option.map_some']
  rw [hall]
  refine ⟨rfl, ?_, rfl⟩
  dsimp only [UpdateUserFSMState, UpdateUserMessageCount]
  rw [huser]
  rfl

/-- Witness for C3's amended theorem at the concrete world: count 3,
trigger 4, overlay idle. -/
theorem c3_offer_transition_witness :
    (handleMessage 1000 none wOfferEx (str "привет")).1.session =
      wOfferEx.session ∧
    (handleMessage 1000 none wOfferEx (str "привет")).1.user =
      some ⟨4, StateOfferingSiteLink, [], false⟩ ∧
    (handleMessage 1000 none wOfferEx (str "привет")).2 =
      some ⟨GetSiteLinkOfferMessage,
        [⟨str "Да", str "site_link_yes"⟩, ⟨str "Нет", str "site_link_no"⟩]⟩ :=
  c3_offer_transition 1000 none wOfferEx (str "привет")
    ⟨3, StateIdle, [], false⟩ (by decide) (by decide) (by decide) (by decide)
    (by decide)

/-- C8: a callback token recognized by none of the dispatch patterns
(the exact tokens site_link_yes/no, site_link_yes_post/no_post,
email_consent_yes/no and the prefixes email_confirm_, start_scenario_,
option_, goto_, action_, back_) mutates no session or user state and
produces no reply: handleCallbackQuery returns the world unchanged with
no reply (and, being a total function, it cannot throw). -/
theorem c8_unknown_callback_no_effect (w : World) (data : GoStr)
    (h : recognizedCallback data = false) :
    handleCallbackQuery w data = (w, none) := by
  simp only [recognizedCallback, Bool.or_eq_false_iff] at h
  obtain ⟨⟨⟨⟨⟨⟨⟨⟨⟨⟨⟨h1, h2⟩, h3⟩, h4⟩, h5⟩, h6⟩, h7⟩, h8⟩, h9⟩, h10⟩, h11⟩, h12⟩ := h
  rw [beq_eq_false_iff_ne] at h1 h2 h3 h4 h5 h6
  cases hu : GetUser w with
  | none =>
    unfold handleCallbackQuery
    rw [hu]
  | some user =>
    unfold handleCallbackQuery
    rw [hu]
    dsimp only
    rw [if_neg h1, if_neg h2, if_neg h3, if_neg h4, if_neg h5, if_neg h6,
        if_neg (by simp [h7]), if_neg (by simp [h8]), if_neg (by simp [h9]),
        if_neg (by simp [h10]), if_neg (by simp [h11]), if_neg (by simp [h12])]

/-- Witness for C8 at the concrete token "foo_bar". -/
theorem c8_unknown_callback_witness :
    recognizedCallback (str "foo_bar") = false ∧
    handleCallbackQuery wUnknownEx (str "foo_bar") = (wUnknownEx, none) :=
  ⟨by decide, c8_unknown_callback_no_effect wUnknownEx (str "foo_bar") (by decide)⟩

/-!
Session-integrity helper lemmas for C10.
-/

theorem getStep_congr (w w' : World) (h : w'.steps = w.steps) (sid : Int)
    (key : GoStr) :
    GetFSMScenarioStep w' sid key = GetFSMScenarioStep w sid key := by
  unfold GetFSMScenarioStep
  rw [h]

theorem sessionValid_transfer (w w' : World) (hsteps : w'.steps = w.steps)
    (hsess : w'.session = w.session) (h : SessionValid w) : SessionValid w' := by
  intro sid key hk
  rw [hsess] at hk
  rw [getStep_congr w w' hsteps]
  exact h sid key hk

theorem sessionValid_delete (w : World) : SessionValid (DeleteUserSession w) := by
  intro sid key hk
  simp [DeleteUserSession] at hk

theorem sessionValid_update (w : World) (sid : Int) (key : GoStr)
    (h : (GetFSMScenarioStep w sid key).isSome) :
    SessionValid (UpdateUserSession w sid key) := by
  intro s k hk
  simp only [UpdateUserSession, Option.some.injEq, Prod.mk.injEq] at hk
  obtain ⟨rfl, rfl⟩ := hk
  rw [getStep_congr w (UpdateUserSession w sid key) rfl]
  exact h

theorem getStep_key (w : World) (sid : Int) (key : GoStr)
    (st : FSMScenarioStep) (h : GetFSMScenarioStep w sid key = some st) :
    st.stepKey = key := by
  unfold GetFSMScenarioStep at h
  cases hf : w.steps.find? (fun e => e.1 = sid ∧ e.2.stepKey = key) with
  | none => rw [hf] at h; simp at h
  | some e =>
    rw [hf] at h
    simp only [Option.map_some', Option.some.injEq] at h
    have hp := List.find?_some hf
    simp only [decide_eq_true_eq] at hp
    rw [← h]
    exact hp.2

theorem getStep_isSome_self (w : World) (sid : Int) (key : GoStr)
    (st : FSMScenarioStep) (h : GetFSMScenarioStep w sid key = some st) :
    (GetFSMScenarioStep w sid st.stepKey).isSome := by
  rw [getStep_key w sid key st h, h]
  rfl

theorem isSome_getStep_of_mem (w : World) (sid : Int) (st : FSMScenarioStep)
    (h : st ∈ GetFSMScenarioSteps w sid) :
    (GetFSMScenarioStep w sid st.stepKey).isSome := by
  unfold GetFSMScenarioSteps at h
  simp only [List.mem_map, List.mem_filter, decide_eq_true_eq] at h
  obtain ⟨e, ⟨hmem, hsid⟩, hsnd⟩ := h
  unfold GetFSMScenarioStep
  have hfind : (w.steps.find?
      (fun e => e.1 = sid ∧ e.2.stepKey = st.stepKey)).isSome := by
    rw [List.find?_isSome]
    exact ⟨e, hmem, by simp [hsid, hsnd]⟩
  cases hf : w.steps.find? (fun e => e.1 = sid ∧ e.2.stepKey = st.stepKey) with
  | none => rw [hf] at hfind; simp at hfind
  | some e2 => simp

theorem getFirstStep_mem (w : World) (sid : Int) (st : FSMScenarioStep)
    (h : GetFirstStep w sid = some st) : st ∈ GetFSMScenarioSteps w sid := by
  unfold GetFirstStep at h
  cases hs : GetFSMScenarioSteps w sid with
  | nil => rw [hs] at h; simp at h
  | cons a rest =>
    rw [hs] at h
    simp only [GetFirstStep, Option.some.injEq] at h
    subst h
    exact List.mem_cons_self a rest

theorem sessionValid_startScenario (w : World) (sc : FSMScenario)
    (r : World × GoStr × List Button × Bool)
    (hr : startScenario w sc = some r) : SessionValid r.1 := by
  unfold startScenario at hr
  cases hf : GetFirstStep w sc.id with
  | none => rw [hf] at hr; simp at hr
  | some step =>
    rw [hf] at hr
    simp only [Option.some.injEq] at hr
    rw [← hr]
    exact sessionValid_update w sc.id step.stepKey
      (isSome_getStep_of_mem w sc.id step (getFirstStep_mem w sc.id step hf))

theorem sessionValid_ProcessMessage (w : World) (ai : Option FSMScenario)
    (message : GoStr) (h : SessionValid w) :
    SessionValid (ProcessMessage w ai message).1 := by
  unfold ProcessMessage
  cases hs : GetUserSession w with
  | none =>
    dsimp only
    split
    · next r hr =>
        split at hr
        · split at hr
          · next sc => exact sessionValid_startScenario w sc r hr
          · simp at hr
        · simp at hr
    · split
      · next sc hsc =>
          split
          · next r hr => exact sessionValid_startScenario w sc r hr
          · exact h
      · exact h
  | some p =>
    obtain ⟨scenarioID, currentStepKey⟩ := p
    dsimp only
    split
    · exact sessionValid_delete w
    · next step hstep =>
        split
        · exact sessionValid_delete w
        · split
          · exact sessionValid_delete w
          · next nextKey hnk =>
              split
              · exact sessionValid_delete w
              · next nextStep hnext =>
                  exact sessionValid_update w scenarioID nextStep.stepKey
                    (getStep_isSome_self w scenarioID nextKey nextStep hnext)

theorem sessionValid_handleStartScenario (w : World) (data : GoStr)
    (h : SessionValid w) : SessionValid (handleStartScenario w data).1 := by
  unfold handleStartScenario
  split
  · exact h
  · next scenarioID _ =>
      split
      · exact h
      · split
        · exact h
        · next step hf =>
            exact sessionValid_update w scenarioID step.stepKey
              (isSome_getStep_of_mem w scenarioID step
                (getFirstStep_mem w scenarioID step hf))

theorem sessionValid_handleOption (w : World) (data : GoStr)
    (h : SessionValid w) : SessionValid (handleOption w data).1 := by
  unfold handleOption
  split
  · rename_i head p1 p2 p3 tail heq
    dsimp only
    split
    · exact h
    · rename_i nextStep hf
      exact sessionValid_update w (goAtoiOrZero p1) nextStep.stepKey
        (isSome_getStep_of_mem w (goAtoiOrZero p1) nextStep
          (List.mem_of_find?_eq_some hf))
  · exact h

theorem sessionValid_handleGoto (w : World) (data : GoStr)
    (h : SessionValid w) : SessionValid (handleGoto w data).1 := by
  unfold handleGoto
  split
  · exact h
  · rename_i scenarioID stepKey heq
    dsimp only
    split
    · exact h
    · rename_i step hf
      exact sessionValid_update w scenarioID step.stepKey
        (getStep_isSome_self w scenarioID stepKey step hf)

theorem sessionValid_handleAction (w : World) (data : GoStr)
    (h : SessionValid w) : SessionValid (handleAction w data).1 := by
  unfold handleAction
  split
  · rename_i head p1 p2 tail heq
    dsimp only
    split
    · exact h
    · rename_i step hf
      exact sessionValid_update w (goAtoiOrZero p1) step.stepKey
        (getStep_isSome_self w (goAtoiOrZero p1) p2 step hf)
  · exact h

theorem sessionValid_handleBack (w : World) (data : GoStr)
    (h : SessionValid w) : SessionValid (handleBack w data).1 := by
  unfold handleBack
  split
  · rename_i head p1 p2 tail heq
    dsimp only
    split
    · exact sessionValid_delete w
    · split
      · exact h
      · rename_i step hf
        exact sessionValid_update w (goAtoiOrZero p1) step.stepKey
          (getStep_isSome_self w (goAtoiOrZero p1) (GetPreviousStepKey p2)
            step hf)
  · exact h

theorem sessionValid_handleCallbackQuery (w : World) (data : GoStr)
    (h : SessionValid w) : SessionValid (handleCallbackQuery w data).1 := by
  unfold handleCallbackQuery
  cases hu : GetUser w with
  | none => exact h
  | some user =>
    dsimp only
    by_cases h1 : data = str "site_link_yes"
    · rw [if_pos h1]; exact sessionValid_transfer w _ rfl rfl h
    · rw [if_neg h1]
      by_cases h2 : data = str "site_link_no"
      · rw [if_pos h2]; exact sessionValid_transfer w _ rfl rfl h
      · rw [if_neg h2]
        by_cases h3 : data = str "site_link_yes_post"
        · rw [if_pos h3]; exact sessionValid_transfer w _ rfl rfl h
        · rw [if_neg h3]
          by_cases h4 : data = str "site_link_no_post"
          · rw [if_pos h4]; exact sessionValid_transfer w _ rfl rfl h
          · rw [if_neg h4]
            by_cases h5 : data = str "email_consent_yes"
            · rw [if_pos h5]
              have hsteps : (handleEmailConsentYes user w).1.steps = w.steps := by
                unfold handleEmailConsentYes
                dsimp only
                by_cases hc : user.email ≠ []
                · rw [if_pos hc]
                  rfl
                · rw [if_neg hc]
                  rfl
              have hsess : (handleEmailConsentYes user w).1.session = w.session := by
                unfold handleEmailConsentYes
                dsimp only
                by_cases hc : user.email ≠ []
                · rw [if_pos hc]
                  rfl
                · rw [if_neg hc]
                  rfl
              exact sessionValid_transfer w _ hsteps hsess h
            · rw [if_neg h5]
              by_cases h6 : data = str "email_consent_no"
              · rw [if_pos h6]; exact sessionValid_transfer w _ rfl rfl h
              · rw [if_neg h6]
                by_cases h7 : goStartsWith (str "email_confirm_") data = true
                · rw [if_pos h7]; exact sessionValid_transfer w _ rfl rfl h
                · rw [if_neg h7]
                  by_cases h8 : goStartsWith (str "start_scenario_") data = true
                  · rw [if_pos h8]; exact sessionValid_handleStartScenario w data h
                  · rw [if_neg h8]
                    by_cases h9 : goStartsWith (str "option_") data = true
                    · rw [if_pos h9]; exact sessionValid_handleOption w data h
                    · rw [if_neg h9]
                      by_cases h10 : goStartsWith (str "goto_") data = true
                      · rw [if_pos h10]; exact sessionValid_handleGoto w data h
                      · rw [if_neg h10]
                        by_cases h11 : goStartsWith (str "action_") data = true
                        · rw [if_pos h11]; exact sessionValid_handleAction w data h
                        · rw [if_neg h11]
                          by_cases h12 : goStartsWith (str "back_") data = true
                          · rw [if_pos h12]; exact sessionValid_handleBack w data h
                          · rw [if_neg h12]; exact h

theorem sessionValid_handleMessage (now : Int) (ai : Option FSMScenario)
    (w : World) (text : GoStr) (h : SessionValid w) :
    SessionValid (handleMessage now ai w text).1 := by
  unfold handleMessage
  dsimp only
  split
  · exact h
  · split
    · exact sessionValid_delete _
    · have hv3 : SessionValid
          (UpdateUserMessageCount
            (GetOrCreateUser
              { w with rate := (CheckRateLimit now w.rate w.rateLimitPerMin).2 }).2) := by
        refine sessionValid_transfer w _ ?_ ?_ h <;>
          (unfold UpdateUserMessageCount GetOrCreateUser
           ; cases w.user <;> rfl)
      split
      · exact hv3
      · split
        · exact sessionValid_transfer _ _ rfl rfl hv3
        · have hpm := sessionValid_ProcessMessage _ ai text hv3
          split
          · exact hpm
          · split
            · exact hpm
            · exact hpm

/-- C10: session integrity is preserved by every inbound event. Whenever
the user's session is non-null its (scenario id, step key) pair resolves
in the step store; every write performed by a handler (scenario start by
NLU or keyword, linear advance, start_scenario, option, goto, action,
back) stores only a step key just fetched or verified from the store,
and every failed lookup either deletes the session or leaves it
unchanged. -/
theorem c10_session_validity_preserved (w : World) (e : Event)
    (h : SessionValid w) : SessionValid (stepWorld w e) := by
  cases e with
  | message now ai text => exact sessionValid_handleMessage now ai w text h
  | callback data => exact sessionValid_handleCallbackQuery w data h

/-- Witness for C10: the concrete world wBackEx satisfies the invariant,
and it still holds after the back-button event. -/
theorem c10_session_validity_witness :
    SessionValid wBackEx ∧
    SessionValid (stepWorld wBackEx
      (Event.callback (str "back_3_no_power_lit"))) := by
  have hv : SessionValid wBackEx := by
    intro sid key hk
    simp only [wBackEx, Option.some.injEq, Prod.mk.injEq] at hk
    obtain ⟨rfl, rfl⟩ := And.intro hk.1.symm hk.2.symm
    decide
  exact ⟨hv, c10_session_validity_preserved wBackEx _ hv⟩
